import Mathlib

/-!
Formal model of the tree-census QC estimator (`src/Flakapp_Tree_Cencus.py`).

The Flask route `qc` is a pure pipeline from a request `{image_path, species}`
to either an error response or a quadruple of rounded measurements.  Python
floats are modelled as real numbers; the OpenCV primitives (`imread`,
`cvtColor`, `GaussianBlur`, `Canny`, `findContours`, `contourArea`,
`minEnclosingCircle`) and `os.path.exists` are external library calls, so they
are abstracted as a record of functions `CV` over abstract image / contour
types.  The one library fact the model records is that
`cv2.minEnclosingCircle` returns a nonnegative radius.
-/

namespace TreeCensus

/-- Species coefficients: the value type of the `species_coeffs` dict,
`{"height": (a, b), "canopy": (c, d)}`. -/
structure Coeffs where
  height : ℝ × ℝ
  canopy : ℝ × ℝ

/-- The module-level `species_coeffs` dict, as an association list in the
source's insertion order. -/
def species_coeffs : List (String × Coeffs) :=
  [ ("Silver maple", ⟨(1.50, 1.778), (0.82, 1.995)⟩),
    ("Ginkgo",       ⟨(1.71, 1.465), (0.63, 1.989)⟩),
    ("Oak",          ⟨(1.30, 1.50),  (0.70, 1.20)⟩),
    ("Maple",        ⟨(1.50, 1.70),  (0.80, 2.00)⟩),
    ("Pine",         ⟨(0.80, 1.25),  (0.50, 1.40)⟩),
    ("Default",      ⟨(1.00, 1.200), (0.50, 1.500)⟩) ]

/-- The `species_coeffs["Default"]` entry. -/
def defaultCoeffs : Coeffs := ⟨(1.00, 1.200), (0.50, 1.500)⟩

/-- `species_coeffs.get(species, species_coeffs["Default"])`: dict lookup with
the `"Default"` row as fallback (exact, case-sensitive key match). -/
def lookupCoeffs (species : String) : Coeffs :=
  (species_coeffs.lookup species).getD defaultCoeffs

/-- The JSON request body: `data.get('image_path')` and
`data.get('species', "Default")`; absent keys give `none`. -/
structure Request where
  image_path : Option String
  species : Option String

/-- The error responses of the route (each returned with HTTP 400). -/
inductive QcError
  | missingInput : QcError
  | notFound : String → QcError
  | decodeError : QcError
  | noTrunkDetected : QcError

/-- The `error` message string attached to each error response. -/
def errorMessage : QcError → String
  | .missingInput => "No image_path provided"
  | .notFound path => "Image not found: " ++ path
  | .decodeError => "Failed to load image"
  | .noTrunkDetected => "No trunk contour found in image"

/-- The successful JSON response: all four fields already rounded. -/
structure QcResult where
  dbh : ℝ
  girth : ℝ
  height : ℝ
  canopy : ℝ

/-- The external library surface used by the route: the filesystem check and
the OpenCV primitives, over abstract image and contour types.  `imread`
returns `none` when the file cannot be decoded (Python `None`).
`findContours` is applied with `RETR_EXTERNAL` / `CHAIN_APPROX_SIMPLE` and its
hierarchy output is discarded by the source, so only the contour list is
modelled.  `radius_nonneg` records that `cv2.minEnclosingCircle` returns a
circle of nonnegative radius. -/
structure CV (Img Contour : Type) where
  pathExists : String → Bool
  imread : String → Option Img
  cvtColor : Img → Img
  gaussianBlur : Img → Nat × Nat → ℝ → Img
  canny : Img → ℝ → ℝ → Img
  findContours : Img → List Contour
  contourArea : Contour → ℝ
  minEnclosingCircle : Contour → (ℝ × ℝ) × ℝ
  radius_nonneg : ∀ c, 0 ≤ (minEnclosingCircle c).2

/-- Python's `max(l, key=f)` scan state: keep the current best, replace it
only when a strictly larger key appears (so ties keep the earlier element). -/
noncomputable def pyMaxAux {C : Type} (f : C → ℝ) (cur : C) : List C → C
  | [] => cur
  | y :: ys => pyMaxAux f (if f cur < f y then y else cur) ys

/-- Python's `max(l, key=f)`: `none` on the empty list (where Python raises;
the source guards with `if not contours` first). -/
noncomputable def pyMax {C : Type} (f : C → ℝ) : List C → Option C
  | [] => none
  | x :: xs => some (pyMaxAux f x xs)

/-- Round half to even (Python 3 `round` tie-breaking) to an integer. -/
noncomputable def rndHalfEven (x : ℝ) : ℤ :=
  if Int.fract x = 1 / 2 then 2 * ⌊(x + 1) / 2⌋ else round x

/-- Python's `round(x, 1)`: round to one decimal digit, ties to even. -/
noncomputable def round1 (x : ℝ) : ℝ :=
  (rndHalfEven (10 * x) : ℝ) / 10

/-- The `/qc` route body, transcribed line by line.  `if not image_path`
is true exactly when the key is absent (`None`) or the string is empty. -/
noncomputable def qc {Img Contour : Type} (cv : CV Img Contour) (req : Request) :
    Except QcError QcResult :=
  let species := req.species.getD "Default"
  match req.image_path with
  | none => .error .missingInput
  | some image_path =>
    if image_path = "" then .error .missingInput
    else if cv.pathExists image_path = false then .error (.notFound image_path)
    else
      match cv.imread image_path with
      | none => .error .decodeError
      | some image =>
        let gray := cv.cvtColor image
        let blurred := cv.gaussianBlur gray (5, 5) 0
        let edges := cv.canny blurred 100 200
        let contours := cv.findContours edges
        match pyMax cv.contourArea contours with
        | none => .error .noTrunkDetected
        | some trunk_contour =>
          let radius := (cv.minEnclosingCircle trunk_contour).2
          let pixel_diameter := 2 * radius
          let scale_cm_per_pixel : ℝ := 0.1
          let dbh_cm := pixel_diameter * scale_cm_per_pixel
          let girth_cm := Real.pi * dbh_cm
          let coeffs := lookupCoeffs species
          let a_h := coeffs.height.1
          let b_h := coeffs.height.2
          let a_c := coeffs.canopy.1
          let b_c := coeffs.canopy.2
          let height_m := a_h * dbh_cm ^ b_h
          let canopy_m := a_c * dbh_cm ^ b_c
          .ok { dbh := round1 dbh_cm, girth := round1 girth_cm,
                height := round1 height_m, canopy := round1 canopy_m }

/-- The contour list the route feeds to `max`: grayscale, blur, Canny edges,
external contours. -/
noncomputable def contoursOf {Img Contour : Type} (cv : CV Img Contour) (img : Img) :
    List Contour :=
  cv.findContours (cv.canny (cv.gaussianBlur (cv.cvtColor img) (5, 5) 0) 100 200)

/-- Invariant of the `max` scan: the result is either the initial candidate,
which then dominates the whole list, or an element of the list that strictly
beats the initial candidate, everything before it, and weakly dominates
everything after it. -/
lemma pyMaxAux_spec {C : Type} (f : C → ℝ) (l : List C) :
    ∀ (cur c : C), pyMaxAux f cur l = c →
      (c = cur ∧ ∀ y ∈ l, f y ≤ f cur) ∨
      (∃ l1 l2, l = l1 ++ c :: l2 ∧ f cur < f c ∧
        (∀ x ∈ l1, f x < f c) ∧ (∀ x ∈ l2, f x ≤ f c)) := by
  induction l with
  | nil =>
    intro cur c h
    left
    exact ⟨h.symm, by simp⟩
  | cons y ys ih =>
    intro cur c h
    rw [pyMaxAux] at h
    by_cases hcy : f cur < f y
    · rw [if_pos hcy] at h
      rcases ih y c h with ⟨hc, hall⟩ | ⟨l1, l2, heq, hlt, h1, h2⟩
      · right
        refine ⟨[], ys, by simp [hc], ?_, by simp, ?_⟩
        · rw [hc]; exact hcy
        · intro x hx; rw [hc]; exact hall x hx
      · right
        refine ⟨y :: l1, l2, by simp [heq], lt_trans hcy hlt, ?_, h2⟩
        intro x hx
        rcases List.mem_cons.mp hx with rfl | hx'
        · exact hlt
        · exact h1 x hx'
    · rw [if_neg hcy] at h
      rcases ih cur c h with ⟨hc, hall⟩ | ⟨l1, l2, heq, hlt, h1, h2⟩
      · left
        refine ⟨hc, ?_⟩
        intro z hz
        rcases List.mem_cons.mp hz with rfl | hz'
        · exact le_of_not_lt hcy
        · exact hall z hz'
      · right
        refine ⟨y :: l1, l2, by simp [heq], hlt, ?_, h2⟩
        intro x hx
        rcases List.mem_cons.mp hx with rfl | hx'
        · exact lt_of_le_of_lt (le_of_not_lt hcy) hlt
        · exact h1 x hx'

/-- Python's `max(l, key=f)` returns the first element attaining the maximal
key: everything strictly earlier has a strictly smaller key, everything later
has a key that is at most the result's. -/
lemma pyMax_spec {C : Type} (f : C → ℝ) (l : List C) (c : C)
    (h : pyMax f l = some c) :
    ∃ l1 l2, l = l1 ++ c :: l2 ∧
      (∀ x ∈ l1, f x < f c) ∧ (∀ x ∈ l2, f x ≤ f c) := by
  cases l with
  | nil => exact absurd h (by simp [pyMax])
  | cons x xs =>
    rw [pyMax, Option.some_inj] at h
    rcases pyMaxAux_spec f xs x c h with ⟨hc, hall⟩ | ⟨l1, l2, heq, hlt, h1, h2⟩
    · refine ⟨[], xs, by simp [hc], by simp, ?_⟩
      intro z hz; rw [hc]; exact hall z hz
    · refine ⟨x :: l1, l2, by simp [heq], ?_, h2⟩
      intro z hz
      rcases List.mem_cons.mp hz with rfl | hz'
      · exact hlt
      · exact h1 z hz'

/-- `pyMax` is `none` only on the empty list. -/
lemma pyMax_eq_none {C : Type} (f : C → ℝ) (l : List C) :
    pyMax f l = none ↔ l = [] := by
  cases l <;> simp [pyMax]

/-- Inversion of a successful run: a success pins down the path, the decoded
image, the selected contour, and all four output fields. -/
lemma qc_ok_elim {Img Contour : Type} (cv : CV Img Contour) (req : Request)
    (res : QcResult) (h : qc cv req = .ok res) :
    ∃ path img trunk,
      req.image_path = some path ∧ path ≠ "" ∧ cv.pathExists path = true ∧
      cv.imread path = some img ∧
      pyMax cv.contourArea (contoursOf cv img) = some trunk ∧
      res = { dbh := round1 (2 * (cv.minEnclosingCircle trunk).2 * 0.1),
              girth := round1 (Real.pi * (2 * (cv.minEnclosingCircle trunk).2 * 0.1)),
              height := round1 ((lookupCoeffs (req.species.getD "Default")).height.1 *
                (2 * (cv.minEnclosingCircle trunk).2 * 0.1) ^
                  (lookupCoeffs (req.species.getD "Default")).height.2),
              canopy := round1 ((lookupCoeffs (req.species.getD "Default")).canopy.1 *
                (2 * (cv.minEnclosingCircle trunk).2 * 0.1) ^
                  (lookupCoeffs (req.species.getD "Default")).canopy.2) } := by
  unfold qc at h
  rcases hp : req.image_path with _ | path
  · rw [hp] at h
    exact absurd h (by simp)
  · rw [hp] at h
    simp only [] at h
    by_cases hne : path = ""
    · rw [if_pos hne] at h
      exact absurd h (by simp)
    · rw [if_neg hne] at h
      by_cases hex : cv.pathExists path = false
      · rw [if_pos hex] at h
        exact absurd h (by simp)
      · rw [if_neg hex] at h
        have hex' : cv.pathExists path = true := by
          revert hex; cases cv.pathExists path <;> simp
        rcases him : cv.imread path with _ | img
        · rw [him] at h
          exact absurd h (by simp)
        · rw [him] at h
          simp only [] at h
          rcases hmax : pyMax cv.contourArea (contoursOf cv img) with _ | trunk
          · rw [show cv.findContours
                (cv.canny (cv.gaussianBlur (cv.cvtColor img) (5, 5) 0) 100 200) =
                contoursOf cv img from rfl, hmax] at h
            exact absurd h (by simp)
          · rw [show cv.findContours
                (cv.canny (cv.gaussianBlur (cv.cvtColor img) (5, 5) 0) 100 200) =
                contoursOf cv img from rfl, hmax] at h
            refine ⟨path, img, trunk, rfl, hne, hex', him, hmax, ?_⟩
            simpa [eq_comm] using h

lemma rndHalfEven_nonneg (x : ℝ) (hx : 0 ≤ x) : 0 ≤ rndHalfEven x := by
  unfold rndHalfEven
  split
  · have h0 : (0 : ℝ) ≤ (x + 1) / 2 := by linarith
    have := Int.floor_nonneg.mpr h0
    omega
  · rw [round_eq]
    exact Int.floor_nonneg.mpr (by linarith)

lemma round1_nonneg (x : ℝ) (hx : 0 ≤ x) : 0 ≤ round1 x := by
  unfold round1
  have : (0 : ℤ) ≤ rndHalfEven (10 * x) := rndHalfEven_nonneg _ (by linarith)
  have h10 : (0 : ℝ) ≤ (rndHalfEven (10 * x) : ℝ) := by exact_mod_cast this
  linarith

lemma round1_tenths (x : ℝ) : ∃ n : ℤ, round1 x = n / 10 :=
  ⟨rndHalfEven (10 * x), rfl⟩

lemma round1_zero : round1 0 = 0 := by
  unfold round1 rndHalfEven
  rw [mul_zero, if_neg (by rw [Int.fract_zero]; norm_num)]
  simp

lemma lookupCoeffs_default : lookupCoeffs "Default" = defaultCoeffs := rfl

/-- Every row of the coefficient table, the `"Default"` fallback included,
has strictly positive leading coefficients. -/
lemma lookupCoeffs_pos (s : String) :
    0 < (lookupCoeffs s).height.1 ∧ 0 < (lookupCoeffs s).canopy.1 := by
  unfold lookupCoeffs
  simp only [species_coeffs, List.lookup]
  repeat' split
  all_goals norm_num [defaultCoeffs]

/-- A concrete library instance for test runs: every path exists, every file
decodes, the pipeline yields a single contour whose minimum enclosing circle
has radius 0. -/
def cvW : CV Unit Unit where
  pathExists := fun _ => true
  imread := fun _ => some ()
  cvtColor := id
  gaussianBlur := fun i _ _ => i
  canny := fun i _ _ => i
  findContours := fun _ => [()]
  contourArea := fun _ => 1
  minEnclosingCircle := fun _ => ((0, 0), 0)
  radius_nonneg := fun _ => le_refl 0

/-- A concrete request with an image path and no species field. -/
def reqW : Request := ⟨some "trunk.jpg", none⟩

lemma pyMax_cvW : pyMax cvW.contourArea (contoursOf cvW ()) = some () := rfl

lemma qc_cvW : qc cvW reqW = .ok ⟨0, 0, 0, 0⟩ := by
  have hlk : List.lookup "Default" species_coeffs = some defaultCoeffs := rfl
  unfold qc cvW reqW
  norm_num [pyMax, pyMaxAux, hlk, defaultCoeffs, round1_zero, Real.zero_rpow]
  rw [if_neg (by decide : ¬("trunk.jpg" = ""))]
  norm_num [lookupCoeffs_default, defaultCoeffs, round1_zero, Real.zero_rpow]

/-- C1: for every successful estimate, the reported trunk diameter is the
diameter in pixels of the minimum enclosing circle of the selected contour
(2 × radius) times the scale constant 0.1 cm/px, rounded to one decimal. -/
theorem qc_dbh_from_min_enclosing_circle {Img Contour : Type} (cv : CV Img Contour)
    (req : Request) (res : QcResult) (h : qc cv req = .ok res) :
    ∃ path img trunk,
      req.image_path = some path ∧ cv.imread path = some img ∧
      pyMax cv.contourArea (contoursOf cv img) = some trunk ∧
      res.dbh = round1 (2 * (cv.minEnclosingCircle trunk).2 * 0.1) := by
  obtain ⟨path, img, trunk, hp, -, -, him, hmax, hres⟩ := qc_ok_elim cv req res h
  exact ⟨path, img, trunk, hp, him, hmax, by rw [hres]⟩

/-- Witness for C1: a concrete successful run. -/
theorem qc_dbh_from_min_enclosing_circle_witness :
    ∃ path img trunk,
      reqW.image_path = some path ∧ cvW.imread path = some img ∧
      pyMax cvW.contourArea (contoursOf cvW img) = some trunk ∧
      (QcResult.mk 0 0 0 0).dbh = round1 (2 * (cvW.minEnclosingCircle trunk).2 * 0.1) :=
  qc_dbh_from_min_enclosing_circle cvW reqW ⟨0, 0, 0, 0⟩ qc_cvW

/-- C2: for every successful estimate there is one raw diameter value `d ≥ 0`
such that the reported dbh is `d` rounded and the reported girth is `π × d`
rounded: the girth/dbh invariant holds exactly up to the one-decimal rounding
of both fields. -/
theorem qc_girth_pi_times_dbh {Img Contour : Type} (cv : CV Img Contour)
    (req : Request) (res : QcResult) (h : qc cv req = .ok res) :
    ∃ d : ℝ, 0 ≤ d ∧ res.dbh = round1 d ∧ res.girth = round1 (Real.pi * d) := by
  obtain ⟨path, img, trunk, -, -, -, -, -, hres⟩ := qc_ok_elim cv req res h
  refine ⟨2 * (cv.minEnclosingCircle trunk).2 * 0.1, ?_, by rw [hres], by rw [hres]⟩
  exact mul_nonneg (mul_nonneg (by norm_num) (cv.radius_nonneg trunk)) (by norm_num)

/-- Witness for C2: a concrete successful run. -/
theorem qc_girth_pi_times_dbh_witness :
    ∃ d : ℝ, 0 ≤ d ∧ (QcResult.mk 0 0 0 0).dbh = round1 d ∧
      (QcResult.mk 0 0 0 0).girth = round1 (Real.pi * d) :=
  qc_girth_pi_times_dbh cvW reqW ⟨0, 0, 0, 0⟩ qc_cvW

/-- C3: for every successful estimate, with the looked-up coefficients of the
requested species (after the `"Default"` fallback) and the raw diameter
`d ≥ 0`, the height output is `heightA × d ^ heightB` rounded and the canopy
output is `canopyA × d ^ canopyB` rounded, with real-valued exponentiation. -/
theorem qc_height_canopy_allometric {Img Contour : Type} (cv : CV Img Contour)
    (req : Request) (res : QcResult) (h : qc cv req = .ok res) :
    ∃ d : ℝ, 0 ≤ d ∧ res.dbh = round1 d ∧
      res.height = round1 ((lookupCoeffs (req.species.getD "Default")).height.1 *
        d ^ (lookupCoeffs (req.species.getD "Default")).height.2) ∧
      res.canopy = round1 ((lookupCoeffs (req.species.getD "Default")).canopy.1 *
        d ^ (lookupCoeffs (req.species.getD "Default")).canopy.2) := by
  obtain ⟨path, img, trunk, -, -, -, -, -, hres⟩ := qc_ok_elim cv req res h
  refine ⟨2 * (cv.minEnclosingCircle trunk).2 * 0.1, ?_,
    by rw [hres], by rw [hres], by rw [hres]⟩
  exact mul_nonneg (mul_nonneg (by norm_num) (cv.radius_nonneg trunk)) (by norm_num)

/-- Witness for C3: a concrete successful run. -/
theorem qc_height_canopy_allometric_witness :
    ∃ d : ℝ, 0 ≤ d ∧ (QcResult.mk 0 0 0 0).dbh = round1 d ∧
      (QcResult.mk 0 0 0 0).height =
        round1 ((lookupCoeffs (reqW.species.getD "Default")).height.1 *
          d ^ (lookupCoeffs (reqW.species.getD "Default")).height.2) ∧
      (QcResult.mk 0 0 0 0).canopy =
        round1 ((lookupCoeffs (reqW.species.getD "Default")).canopy.1 *
          d ^ (lookupCoeffs (reqW.species.getD "Default")).canopy.2) :=
  qc_height_canopy_allometric cvW reqW ⟨0, 0, 0, 0⟩ qc_cvW

/-- C8: every successful result's four fields are integer multiples of one
tenth (at most one decimal digit) and are nonnegative. -/
theorem qc_outputs_rounded_nonneg {Img Contour : Type} (cv : CV Img Contour)
    (req : Request) (res : QcResult) (h : qc cv req = .ok res) :
    (0 ≤ res.dbh ∧ ∃ n : ℤ, res.dbh = n / 10) ∧
    (0 ≤ res.girth ∧ ∃ n : ℤ, res.girth = n / 10) ∧
    (0 ≤ res.height ∧ ∃ n : ℤ, res.height = n / 10) ∧
    (0 ≤ res.canopy ∧ ∃ n : ℤ, res.canopy = n / 10) := by
  obtain ⟨path, img, trunk, -, -, -, -, -, hres⟩ := qc_ok_elim cv req res h
  have hd : (0 : ℝ) ≤ 2 * (cv.minEnclosingCircle trunk).2 * 0.1 :=
    mul_nonneg (mul_nonneg (by norm_num) (cv.radius_nonneg trunk)) (by norm_num)
  obtain ⟨hh, hc⟩ := lookupCoeffs_pos (req.species.getD "Default")
  rw [hres]
  refine ⟨⟨round1_nonneg _ hd, round1_tenths _⟩,
    ⟨round1_nonneg _ (mul_nonneg Real.pi_pos.le hd), round1_tenths _⟩,
    ⟨round1_nonneg _ (mul_nonneg hh.le (Real.rpow_nonneg hd _)), round1_tenths _⟩,
    ⟨round1_nonneg _ (mul_nonneg hc.le (Real.rpow_nonneg hd _)), round1_tenths _⟩⟩

/-- Witness for C8: a concrete successful run. -/
theorem qc_outputs_rounded_nonneg_witness :
    (0 ≤ (QcResult.mk 0 0 0 0).dbh ∧ ∃ n : ℤ, (QcResult.mk 0 0 0 0).dbh = n / 10) ∧
    (0 ≤ (QcResult.mk 0 0 0 0).girth ∧ ∃ n : ℤ, (QcResult.mk 0 0 0 0).girth = n / 10) ∧
    (0 ≤ (QcResult.mk 0 0 0 0).height ∧ ∃ n : ℤ, (QcResult.mk 0 0 0 0).height = n / 10) ∧
    (0 ≤ (QcResult.mk 0 0 0 0).canopy ∧ ∃ n : ℤ, (QcResult.mk 0 0 0 0).canopy = n / 10) :=
  qc_outputs_rounded_nonneg cvW reqW ⟨0, 0, 0, 0⟩ qc_cvW

/-- C4: for a species string absent from the coefficient table (lookup is a
case-sensitive exact match), the estimate equals the estimate with species
`"Default"` on the same image. -/
theorem qc_unknown_species_default {Img Contour : Type} (cv : CV Img Contour)
    (p : Option String) (s : String) (h : species_coeffs.lookup s = none) :
    qc cv ⟨p, some s⟩ = qc cv ⟨p, some "Default"⟩ := by
  have hco : lookupCoeffs s = lookupCoeffs "Default" := by
    rw [lookupCoeffs, h, lookupCoeffs_default]
    rfl
  simp only [qc, Option.getD_some, hco]

/-- Witness for C4: lowercase `"oak"` is not a table key. -/
theorem qc_unknown_species_default_witness :
    qc cvW ⟨some "trunk.jpg", some "oak"⟩ = qc cvW ⟨some "trunk.jpg", some "Default"⟩ :=
  qc_unknown_species_default cvW (some "trunk.jpg") "oak" rfl

/-- C5: the contour whose minimum enclosing circle the estimate measures is
the first contour of maximal area in the extracted list: every earlier
contour has strictly smaller area and every later one has area at most its. -/
theorem qc_selects_first_max_area_contour {Img Contour : Type} (cv : CV Img Contour)
    (req : Request) (res : QcResult) (h : qc cv req = .ok res) :
    ∃ path img trunk l1 l2,
      req.image_path = some path ∧ cv.imread path = some img ∧
      contoursOf cv img = l1 ++ trunk :: l2 ∧
      (∀ x ∈ l1, cv.contourArea x < cv.contourArea trunk) ∧
      (∀ x ∈ l2, cv.contourArea x ≤ cv.contourArea trunk) ∧
      res.dbh = round1 (2 * (cv.minEnclosingCircle trunk).2 * 0.1) := by
  obtain ⟨path, img, trunk, hp, -, -, him, hmax, hres⟩ := qc_ok_elim cv req res h
  obtain ⟨l1, l2, heq, hlt, hle⟩ := pyMax_spec _ _ _ hmax
  exact ⟨path, img, trunk, l1, l2, hp, him, heq, hlt, hle, by rw [hres]⟩

/-- Witness for C5: a concrete successful run. -/
theorem qc_selects_first_max_area_contour_witness :
    ∃ path img trunk l1 l2,
      reqW.image_path = some path ∧ cvW.imread path = some img ∧
      contoursOf cvW img = l1 ++ trunk :: l2 ∧
      (∀ x ∈ l1, cvW.contourArea x < cvW.contourArea trunk) ∧
      (∀ x ∈ l2, cvW.contourArea x ≤ cvW.contourArea trunk) ∧
      (QcResult.mk 0 0 0 0).dbh = round1 (2 * (cvW.minEnclosingCircle trunk).2 * 0.1) :=
  qc_selects_first_max_area_contour cvW reqW ⟨0, 0, 0, 0⟩ qc_cvW

/-- C6: a nonempty path to a missing file yields the `NotFound` error, for
every possible decoder: the file is never decoded. -/
theorem qc_missing_file_not_found {Img Contour : Type} (cv : CV Img Contour)
    (p : String) (sp : Option String) (f : String → Option Img)
    (hne : p ≠ "") (hex : cv.pathExists p = false) :
    qc { cv with imread := f } ⟨some p, sp⟩ = .error (.notFound p) := by
  simp [qc, hne, hex]

/-- Witness for C6: a filesystem on which no path exists. -/
theorem qc_missing_file_not_found_witness :
    qc { { cvW with pathExists := fun _ => false } with imread := fun _ => none }
      ⟨some "missing.jpg", none⟩ = .error (.notFound "missing.jpg") :=
  qc_missing_file_not_found { cvW with pathExists := fun _ => false }
    "missing.jpg" none (fun _ => none) (by decide) rfl

/-- C7: when the edge/contour pipeline extracts zero contours, the estimate is
the `NoTrunkDetected` error (which carries no measurement values). -/
theorem qc_no_contours_no_trunk {Img Contour : Type} (cv : CV Img Contour)
    (req : Request) (path : String) (img : Img)
    (hp : req.image_path = some path) (hne : path ≠ "")
    (hex : cv.pathExists path = true) (him : cv.imread path = some img)
    (hc : contoursOf cv img = []) :
    qc cv req = .error .noTrunkDetected := by
  have hc' : cv.findContours
      (cv.canny (cv.gaussianBlur (cv.cvtColor img) (5, 5) 0) 100 200) = [] := hc
  simp [qc, hp, hne, hex, him, hc', pyMax]

/-- Witness for C7: a pipeline that finds no contours. -/
theorem qc_no_contours_no_trunk_witness :
    qc { cvW with findContours := fun _ => [] } reqW = .error .noTrunkDetected :=
  qc_no_contours_no_trunk { cvW with findContours := fun _ => [] } reqW
    "trunk.jpg" () rfl (by decide) rfl rfl rfl

/-- C9: the estimator keeps no state and reads nothing but the decoded image
and the species: two requests whose paths decode to the same image content,
with the same species field, produce identical results; the coefficient table
is a fixed constant the route only reads. -/
theorem qc_stateless_content_determined {Img Contour : Type} (cv : CV Img Contour)
    (p1 p2 : String) (sp : Option String) (hne1 : p1 ≠ "") (hne2 : p2 ≠ "")
    (h1 : cv.pathExists p1 = true) (h2 : cv.pathExists p2 = true)
    (himg : cv.imread p1 = cv.imread p2) :
    qc cv ⟨some p1, sp⟩ = qc cv ⟨some p2, sp⟩ := by
  simp only [qc]
  rw [if_neg hne1, if_neg hne2, if_neg (by simp [h1]), if_neg (by simp [h2]), himg]

/-- Witness for C9: two distinct paths decoding to the same image. -/
theorem qc_stateless_content_determined_witness :
    qc cvW ⟨some "a.jpg", none⟩ = qc cvW ⟨some "b.jpg", none⟩ :=
  qc_stateless_content_determined cvW "a.jpg" "b.jpg" none
    (by decide) (by decide) rfl rfl rfl

/-- C10: a request whose `image_path` is the empty string is treated as
missing input — the `MissingInput` error with message "No image_path
provided", distinct from every `NotFound` error — for every possible
filesystem: the filesystem is never consulted. -/
theorem qc_empty_path_missing_input {Img Contour : Type} (cv : CV Img Contour)
    (pe : String → Bool) (sp : Option String) :
    qc { cv with pathExists := pe } ⟨some "", sp⟩ = .error .missingInput ∧
    errorMessage .missingInput = "No image_path provided" ∧
    ∀ q, QcError.missingInput ≠ QcError.notFound q := by
  refine ⟨by simp [qc], rfl, ?_⟩
  intro q h
  cases h

end TreeCensus
